import Mathlib

/-!
Verification of the autoRS response-spectrum / cumulative-integration core
against its natural-language specification.

The numeric source (numpy code) is embedded over exact rationals (`ℚ`) and
reals (`ℝ`).  Where the distinction between exact arithmetic and the IEEE
binary64 arithmetic that numpy actually performs is load-bearing (the
frequency-grid monotonicity question), a second, explicitly named `_fp`
model of the same source function is given, built on a verified
round-to-nearest-even binary64 rounding function over `ℚ`.
-/

namespace AutoRS

/-! ### `autoRS/core/utils.py` — cumulative integration

`y` is a list of samples, `x` an optional abscissa, `dx` a uniform step,
`initial` the seed value of the cumulative integral.  Python exceptions are
modelled with `Except`; an out-of-range numpy element access is modelled by
`Option` inside the individual integrators. -/

inductive IntegrationError where
  /-- `ValueError`: "y must have 2 or more elements ..." -/
  | invalidLength
  /-- `ValueError`: "y and x must have the same length." -/
  | lengthMismatch
  /-- `IndexError` from an out-of-range numpy element access. -/
  | indexError
  deriving DecidableEq, Repr

/-- `np.cumsum`: running partial sums, same length as the input. -/
def cumsum : List ℚ → List ℚ
  | [] => []
  | h :: t => List.scanl (· + ·) h t

/-- `np.diff`: successive differences. -/
def npDiff (l : List ℚ) : List ℚ := (l.zip l.tail).map fun p => p.2 - p.1

/-- `np.mean`.  (`np.mean` of an empty array is NaN in numpy; the empty case
is unreachable in every theorem below, and division by `0` yields `0` in
`ℚ`.) -/
def npMean (l : List ℚ) : ℚ := l.sum / l.length

/-- The element at python index `-k` (i.e. `l[-k]`), defined iff
`k ≤ l.length`, mirroring numpy negative indexing. -/
def negGet (l : List ℚ) (k : ℕ) : Option ℚ :=
  if k ≤ l.length then l.get? (l.length - k) else none

/-- `_cumulative_trapezoidal` (utils.py lines 18-28).
`sub_integrals[i] = (x[i+1]-x[i]) * (y[i]+y[i+1]) / 2` when an abscissa is
given, else `dx * (y[i]+y[i+1]) / 2`; result is
`np.cumsum([initial] ++ sub_integrals)`. -/
def _cumulative_trapezoidal (y : List ℚ) (x : Option (List ℚ)) (dx : ℚ)
    (initial : ℚ) : List ℚ :=
  let sub_integrals :=
    match x with
    | some xs => (List.range (y.length - 1)).map fun i =>
        (xs.getD (i + 1) 0 - xs.getD i 0) * (y.getD i 0 + y.getD (i + 1) 0) / 2
    | none => (List.range (y.length - 1)).map fun i =>
        dx * (y.getD i 0 + y.getD (i + 1) 0) / 2
  cumsum (initial :: sub_integrals)

/-- `_cumulative_simpson_quad` (utils.py lines 31-49).  The slice
expressions `y[:-2]`, `y[1:-1]`, `y[2:]` become the index shifts
`i`, `i+1`, `i+2` over `range (len y - 2)`.  `none` models the `IndexError`
numpy raises on `sub_integrals_fwd[0]` when that array is empty. -/
def _cumulative_simpson_quad (y : List ℚ) (dx : ℚ) (initial : ℚ) :
    Option (List ℚ) :=
  let g := fun i => y.getD i 0
  let fwd := (List.range (y.length - 2)).map fun i =>
    dx / 3 * (5 * g i / 4 + 2 * g (i + 1) - g (i + 2) / 4)
  let bwd := (List.range (y.length - 2)).map fun i =>
    dx / 3 * (-(g i) / 4 + 2 * g (i + 1) + 5 * g (i + 2) / 4)
  do
    let f0 ← fwd.head?
    let bl ← negGet bwd 1
    pure (cumsum (initial :: f0 ::
      ((fwd.tail.zip bwd.dropLast).map fun p => (p.1 + p.2) / 2) ++ [bl]))

/-- `_cumulative_simpson_cubic` (utils.py lines 52-80).  Slices `y[:-3]`,
`y[1:-2]`, `y[2:-1]`, `y[3:]` become index shifts over `range (len y - 3)`.
The element accesses `fwd[1]`, `mid[0]`, `bwd[-2]`, `mid[-1]`, `bwd[-1]`
are fallible exactly as in numpy (they raise `IndexError` when
`len y < 5`). -/
def _cumulative_simpson_cubic (y : List ℚ) (dx : ℚ) (initial : ℚ) :
    Option (List ℚ) :=
  let g := fun i => y.getD i 0
  let n := y.length
  let fwd := (List.range (n - 3)).map fun i =>
    dx * (3 * g i / 8 + 19 * g (i + 1) / 24 - 5 * g (i + 2) / 24 + g (i + 3) / 24)
  let mid := (List.range (n - 3)).map fun i =>
    dx * (-(g i) / 24 + 13 * g (i + 1) / 24 + 13 * g (i + 2) / 24 - g (i + 3) / 24)
  let bwd := (List.range (n - 3)).map fun i =>
    dx * (g i / 24 - 5 * g (i + 1) / 24 + 19 * g (i + 2) / 24 + 3 * g (i + 3) / 8)
  do
    let f0 ← fwd.head?
    let f1 ← fwd.get? 1
    let m0 ← mid.head?
    let bm2 ← negGet bwd 2
    let ml ← negGet mid 1
    let bl ← negGet bwd 1
    let mids := (List.zipWith (· + ·)
      (List.zipWith (· + ·) (fwd.drop 2) ((mid.drop 1).dropLast))
      (bwd.dropLast.dropLast)).map (· / 3)
    pure (cumsum (initial :: f0 :: (f1 + m0) / 2 ::
      (mids ++ [(bm2 + ml) / 2, bl])))

/-- The keys of `integration_methods` (utils.py lines 84-88). -/
def integration_method_names : List String :=
  ["trapezoidal", "simpson 1/3", "simpson 3/8"]

/-- `integration_methods[method](y, dx=dx, initial=initial)`: the final
dispatch of `cumulative_integral`; `method` is always one of the three keys
by the time it is consulted, and the last branch is the `"simpson 1/3"`
entry. -/
def integration_dispatch (method : String) (y : List ℚ) (dx initial : ℚ) :
    Except IntegrationError (List ℚ) :=
  if method = "trapezoidal" then
    .ok (_cumulative_trapezoidal y none dx initial)
  else if method = "simpson 3/8" then
    match _cumulative_simpson_cubic y dx initial with
    | some r => .ok r
    | none => .error .indexError
  else
    match _cumulative_simpson_quad y dx initial with
    | some r => .ok r
    | none => .error .indexError

/-- Decides `np.std(np.diff(x)) > 0.02 * np.mean(np.diff(x))`
(utils.py line 122) without square roots: for `s = √v ≥ 0` and threshold
`t`, `s > t ↔ t < 0 ∨ t² < v`, where `v` is the population variance
`np.std(d)²` and `t = np.mean(d) / 50`. -/
def nonuniform_spacing (xs : List ℚ) : Bool :=
  let d := npDiff xs
  let m := npMean d
  let t := m / 50
  let v := npMean (d.map fun a => (a - m) ^ 2)
  decide (t < 0) || decide (t ^ 2 < v)

/-- `cumulative_integral` (utils.py lines 91-127). -/
def cumulative_integral (y : List ℚ) (x : Option (List ℚ)) (dx : ℚ)
    (initial : ℚ) (method : String) : Except IntegrationError (List ℚ) :=
  let m := if integration_method_names.contains method then method
    else "simpson 1/3"
  if y.length = 1 then .error .invalidLength
  else
    let m := if y.length = 2 then "trapezoidal"
      else if y.length = 3 ∧ m = "simpson 3/8" then "simpson 1/3" else m
    match x with
    | some xs =>
      if xs.length ≠ y.length then .error .lengthMismatch
      else if nonuniform_spacing xs then
        .ok (_cumulative_trapezoidal y (some xs) 1 initial)
      else integration_dispatch m y (npMean (npDiff xs)) initial
    | none => integration_dispatch m y dx initial

/-! ### `autoRS/spectrum.py` — frequency grids, exact-arithmetic model

`np.arange(start, stop, step)` has `⌈(stop-start)/step⌉` elements
`start + i*step`; here the decimal literals of the source are exact
rationals and the arithmetic is exact.  An IEEE binary64 model of the same
function follows, for the one claim where the distinction between exact and
double-precision arithmetic is load-bearing. -/

def arange (start stop step : ℚ) : List ℚ :=
  (List.range (⌈(stop - start) / step⌉).toNat).map fun (i : ℕ) =>
    start + (i : ℚ) * step

/-- The breakpoint/increment table
`zip(frq_range[:-1], frq_range[1:], increments)` of
`get_asme_frequencies` (spectrum.py lines 30-31). -/
def asme_range_table : List (ℚ × ℚ × ℚ) :=
  [(1/10, 3, 1/10), (3, 18/5, 3/20), (18/5, 5, 1/5), (5, 8, 1/4),
   (8, 15, 1/2), (15, 18, 1), (18, 22, 2), (22, 34, 3)]

/-- `get_asme_frequencies` (spectrum.py lines 21-36): the eight `np.arange`
segments concatenated, with the terminal value 34 appended. -/
def get_asme_frequencies : List ℚ :=
  (asme_range_table.map fun t => arange t.1 t.2.1 t.2.2).flatten ++ [34]

/-- `np.geomspace(a, b, num, endpoint=True)` for positive endpoints:
`num` log-spaced points `a * (b/a) ^ (i/(num-1))` (real exponentiation). -/
noncomputable def geomspace (a b : ℝ) (num : ℕ) : List ℝ :=
  (List.range num).map fun (i : ℕ) =>
    a * (b / a) ^ ((i : ℝ) / ((num : ℝ) - 1))

/-- Python's `round` on the positive reals appearing here (none of which is
an exact half-integer, so the bankers-rounding tie rule never fires),
returned as a real number as `np.append` coerces it. -/
noncomputable def roundR (x : ℝ) : ℝ := ((round x : ℤ) : ℝ)

/-- `get_default_frequencies` (spectrum.py lines 39-79), exact-real model:
the ASME grid, extended by `npts_low = 100 - len(frqs)` rounded geometric
points up to 100 Hz, and, if `high_frequency`, by 15 further rounded
geometric points up to 1000 Hz. -/
noncomputable def get_default_frequencies (high_frequency : Bool) : List ℝ :=
  let frqs : List ℝ := get_asme_frequencies.map fun (q : ℚ) => (q : ℝ)
  let npts_low : ℕ := 100 - frqs.length
  let frqs := frqs ++
    ((geomspace (frqs.getLastD 0) 100 (npts_low + 1)).drop 1).map roundR
  if high_frequency then
    frqs ++ ((geomspace (frqs.getLastD 0) 1000 (15 + 1)).drop 1).map roundR
  else frqs

/-! ### IEEE binary64 model of the ASME grid

numpy performs the grid construction in binary64.  `fl` rounds a rational
to the nearest binary64 value (ties to even); it is valid on the normal
range (all quantities below lie in `[1/20, 40]`, far from overflow and
subnormals).  `np.arange` computes its length as `ceil((stop-start)/step)`
and its elements as `start + i*step`, each operation correctly rounded. -/

/-- Round to the nearest integer, ties to even. -/
def roundTiesEven (q : ℚ) : ℤ :=
  if q - ⌊q⌋ < 1/2 then ⌊q⌋
  else if 1/2 < q - ⌊q⌋ then ⌊q⌋ + 1
  else if ⌊q⌋ % 2 = 0 then ⌊q⌋ else ⌊q⌋ + 1

/-- `⌊log₂ q⌋` for rationals `q ≥ 2^(-120)`. -/
def floorLog2 (q : ℚ) : ℤ :=
  (Nat.log 2 (Int.toNat ⌊q * 2 ^ 120⌋) : ℤ) - 120

/-- Round a rational to the nearest IEEE binary64 value (53-bit
significand, round to nearest, ties to even). -/
def fl (q : ℚ) : ℚ :=
  if q = 0 then 0
  else ((if q < 0 then -1 else 1) : ℚ) *
    roundTiesEven (|q| * 2 ^ (52 - floorLog2 |q|)) * 2 ^ (floorLog2 |q| - 52)

/-- Correctly rounded binary64 addition. -/
def dadd (a b : ℚ) : ℚ := fl (a + b)

/-- Correctly rounded binary64 subtraction. -/
def dsub (a b : ℚ) : ℚ := fl (a - b)

/-- Correctly rounded binary64 multiplication. -/
def dmul (a b : ℚ) : ℚ := fl (a * b)

/-- Correctly rounded binary64 division. -/
def ddiv (a b : ℚ) : ℚ := fl (a / b)

/-- `np.arange` in binary64: length `ceil((stop-start)/step)` and elements
`start + i*step`, evaluated in double precision. -/
def arange_fp (start stop step : ℚ) : List ℚ :=
  (List.range (⌈ddiv (dsub stop start) step⌉).toNat).map
    fun (i : ℕ) => dadd start (dmul (i : ℚ) step)

/-- `get_asme_frequencies` in binary64: the decimal literals of the source
become the binary64 values nearest them. -/
def get_asme_frequencies_fp : List ℚ :=
  (asme_range_table.map fun t => arange_fp (fl t.1) (fl t.2.1) (fl t.2.2)).flatten
    ++ [fl 34]

/-! ### `autoRS/spectrum.py` — solvers and engine

The two solvers are embedded over `ℝ`/`ℂ`; they are noncomputable (they
involve `exp`, trigonometric functions and the discrete Fourier
transform).  The claims below concern the engine's dispatch, validation
and I/O behaviour and the solvers' dependence on their `time` argument,
none of which requires evaluating the numerics. -/

/-- Python exceptions that can escape the two solvers: `IndexError` from
indexing a too-short sequence, `TypeError` from assigning a complex
scalar into a float64 array, `ValueError` from `np.fft.rfft` called with
zero points. -/
inductive PyError where
  | indexError
  | typeError
  | valueError
  deriving DecidableEq, Repr

/-- A 2-by-2 real matrix. -/
structure Mat2 where
  m00 : ℝ
  m01 : ℝ
  m10 : ℝ
  m11 : ℝ

/-- `_get_step_matrix` (spectrum.py lines 85-152): the Nigam-Jennings
recursion matrices `A`, `B`.  `zsqt = (1 - zeta**2) ** 0.5` is a real
number, in the source as here, exactly when `1 - zeta² ≥ 0`; for
`1 - zeta² < 0` the Python value is complex and the very first assignment
`A[0, 0] = ...` (line 129) raises `TypeError: can't convert complex to
float` — that case never reaches these formulas, because `_step_rs_dt`
below intercepts it as an error before using them.  (At `zeta = ±1` the
source divides numpy scalars by `zsqt = 0.0`, which warns and yields
inf/nan without raising, so the call still returns; no claim depends on
the solver's numeric values there.) -/
noncomputable def _get_step_matrix (w zeta dt : ℝ) : Mat2 × Mat2 :=
  let exp := Real.exp (-zeta * w * dt)
  let zsqt := (1 - zeta ^ 2) ^ ((1:ℝ)/2)
  let sin := Real.sin (w * zsqt * dt)
  let cos := Real.cos (w * zsqt * dt)
  let t1 := (2 * zeta ^ 2 - 1) / w ^ 2 / dt
  let t2 := 2 * zeta / w ^ 3 / dt
  (⟨exp * (cos + sin * zeta / zsqt),
    exp / (w * zsqt) * sin,
    -w / zsqt * exp * sin,
    exp * (cos - sin * zeta / zsqt)⟩,
   ⟨exp * (sin / (w * zsqt) * (t1 + zeta / w) + cos * (t2 + 1 / w ^ 2)) - t2,
    -exp * (sin / (w * zsqt) * t1 + cos * t2) - 1 / w ^ 2 + t2,
    exp * ((t1 + zeta / w) * (cos - sin * zeta / zsqt)
      - (t2 + 1 / w ^ 2) * (sin * w * zsqt + cos * zeta * w))
      + 1 / w ^ 2 / dt,
    -exp * (t1 * (cos - sin * zeta / zsqt)
      - t2 * (sin * w * zsqt + cos * zeta * w)) - 1 / w ^ 2 / dt⟩)

/-- The `func` closure of `_step_rs`:
`x_{i+1} = A·x_i + B·[a_i, a_{i+1}]`. -/
noncomputable def step_func (A B : Mat2) (x a : ℝ × ℝ) : ℝ × ℝ :=
  (A.m00 * x.1 + A.m01 * x.2 + B.m00 * a.1 + B.m01 * a.2,
   A.m10 * x.1 + A.m11 * x.2 + B.m10 * a.1 + B.m11 * a.2)

/-- `np.max(np.absolute(v))` over a list (0 for an empty list; the lists
it is applied to below are never empty, and their members are absolute
values, so the seed does not change the maximum). -/
noncomputable def maxAbs (l : List ℝ) : ℝ := (l.map fun v => |v|).foldr max 0

/-- `_step_rs` (spectrum.py lines 155-221) with the timestep explicit.
`itertools.accumulate(act, func)` keeps `act[0] = (0,0)` as the first
state, which is exactly `List.scanl` seeded with `(0,0)` over the rest of
`act = [[0,0],[0,acc[0]]] ++ column_stack(acc[:-1], acc[1:])`.  The
per-frequency loop body can raise, and does so on its first iteration, so
exactly when `frqs` is nonempty: first (line 129, inside
`_get_step_matrix`) a `TypeError` when `1 - zeta² < 0` makes `zsqt`
complex, then (line 215, `acc[0]`) an `IndexError` when `acc` is
empty. -/
noncomputable def _step_rs_dt (acc : List ℝ) (dt : ℝ) (frqs : List ℝ)
    (zeta : ℝ) : Except PyError (List ℝ × List ℝ) :=
  if ¬ frqs.isEmpty ∧ 1 - zeta ^ 2 < 0 then .error .typeError
  else if ¬ frqs.isEmpty ∧ acc.isEmpty then .error .indexError
  else
    .ok (frqs.map (fun f =>
      let wn := f * 2 * Real.pi
      let AB := _get_step_matrix wn zeta dt
      let act : List (ℝ × ℝ) :=
        (0, acc.headD 0) :: (acc.dropLast.zip (acc.drop 1))
      let x := List.scanl (step_func AB.1 AB.2) (0, 0) act
      maxAbs (x.map fun xi => -(wn ^ 2 * xi.1 + 2 * zeta * wn * xi.2))),
      frqs)

/-- `_step_rs`: the whole `time` argument is read only in
`dt = time[1] - time[0]` (spectrum.py line 202), which raises
`IndexError` before anything else runs when `time` has fewer than two
entries. -/
noncomputable def _step_rs (acc time frqs : List ℝ) (zeta : ℝ) :
    Except PyError (List ℝ × List ℝ) :=
  if time.length < 2 then .error .indexError
  else _step_rs_dt acc (time.getD 1 0 - time.getD 0 0) frqs zeta

/-- `np.fft.rfft(a, n)[k]`: real-input DFT bin `k` of the first `n`
samples of `a` (zero-padded). -/
noncomputable def rfft (a : List ℝ) (n : ℕ) (k : ℕ) : ℂ :=
  ∑ j ∈ Finset.range n, (a.getD j 0 : ℂ) *
    Complex.exp (-2 * Real.pi * Complex.I * j * k / n)

/-- `np.fft.irfft(X, n)[t]`: inverse transform of the first `nbins` bins
of `X` (bins beyond `nbins` are zero, as when numpy zero-pads the
spectrum to `n/2 + 1` bins), reconstructed through the Hermitian
extension. -/
noncomputable def irfft (X : ℕ → ℂ) (nbins n : ℕ) (t : ℕ) : ℝ :=
  ((1 / (n : ℂ)) * ∑ k ∈ Finset.range n,
    (if k ≤ n / 2 then (if k < nbins then X k else 0)
     else (starRingEnd ℂ) (if n - k < nbins then X (n - k) else 0)) *
      Complex.exp (2 * Real.pi * Complex.I * k * t / n)).re

/-- `_fft_rs` (spectrum.py lines 224-299) with the nominal timestep
explicit: zero-pad to `n_fft`, the smallest power of two at least
`1.5·n`; transform once; per oscillator frequency apply the SDOF transfer
function, add back the input spectrum, inverse-transform with 8-fold
upsampling, and take the peak absolute value.  For empty `acc` the padded
length evaluates to `n_fft = int(2**np.ceil(np.log(0.0)/np.log(2))) = 0`
(numpy's `log(0.0)` warns and yields `-inf` without raising, and
`int(2.0 ** -inf) = 0`) and `np.fft.rfft(acc, 0)` then raises
`ValueError: Invalid number of FFT data points`; for nonempty `acc` no
statement in the body raises. -/
noncomputable def _fft_rs_dt (acc : List ℝ) (dt_min : ℝ) (frqs : List ℝ)
    (zeta : ℝ) : Except PyError (List ℝ × List ℝ) :=
  if acc.isEmpty then .error .valueError
  else
    let n := acc.length
    let n_fft := (2 : ℕ) ^ (⌈Real.log (1.5 * n) / Real.log 2⌉).toNat
    let multiplier := 8
    let xgfft := rfft acc n_fft
    let frqt : ℕ → ℝ := fun k => k / (n_fft * dt_min)
    let rs := frqs.map fun f =>
      let wn := f * 2 * Real.pi
      let wf : ℕ → ℝ := fun k => frqt k * 2 * Real.pi
      let xfft : ℕ → ℂ := fun k =>
        -xgfft k / (-(wf k ^ 2 : ℝ) + 2 * zeta * wn * Complex.I * wf k
          + (wn ^ 2 : ℝ))
      let abs_accfft : ℕ → ℂ := fun k => -xfft k * (wf k ^ 2 : ℝ) + xgfft k
      maxAbs ((List.range (multiplier * n_fft)).map fun t =>
        irfft abs_accfft (n_fft / 2 + 1) (multiplier * n_fft) t * multiplier)
    .ok (rs, frqs)

/-- `_fft_rs`: the whole `time` argument is read only in
`dt_min = time[1] - time[0]` (spectrum.py line 260), which raises
`IndexError` before anything else runs when `time` has fewer than two
entries. -/
noncomputable def _fft_rs (acc time frqs : List ℝ) (zeta : ℝ) :
    Except PyError (List ℝ × List ℝ) :=
  if time.length < 2 then .error .indexError
  else _fft_rs_dt acc (time.getD 1 0 - time.getD 0 0) frqs zeta

/-- Tags for the two registered RS algorithms.  The source dictionary
`RS_METHODS_DICT` maps names to the solver functions; here it maps names
to tags and `apply_rs_method` maps tags to the functions, so that the
dispatch itself is decidable. -/
inductive RSMethod where
  | fft
  | shake
  deriving DecidableEq, Repr

/-- `RS_METHODS_DICT` (spectrum.py lines 305-308): note the keys are
`"fft"` and `"shake"`. -/
def RS_METHODS_DICT : List (String × RSMethod) :=
  [("fft", .fft), ("shake", .shake)]

def DEFAULT_METHOD : String := "fft"

/-- `RS_METHODS_DICT.get(method, RS_METHODS_DICT[DEFAULT_METHOD])`
(spectrum.py line 352). -/
def rs_method_lookup (method : String) : RSMethod :=
  (RS_METHODS_DICT.lookup method).getD
    ((RS_METHODS_DICT.lookup DEFAULT_METHOD).getD .fft)

/-- The solver registered under each tag. -/
noncomputable def apply_rs_method :
    RSMethod → List ℝ → List ℝ → List ℝ → ℝ →
      Except PyError (List ℝ × List ℝ)
  | .fft => _fft_rs
  | .shake => _step_rs

/-- The observable side effects of `response_spectrum`: the single
`print` of timing information (spectrum.py lines 367-370).  The
`perf_counter` reads only feed that message, not the numeric result. -/
inductive RSEffect where
  | print
  deriving DecidableEq, Repr

/-- `response_spectrum` (spectrum.py lines 318-372).  The body itself
contains no `raise` and no input validation; an exception raised by the
selected solver propagates unchanged out of the call (the failure
propagation spec section 4.4 describes), and it escapes before the
timing print of lines 367-370 runs, so the effect trace — the single
`print` — is attached to the normal return only. -/
noncomputable def response_spectrum (acc time : List ℝ) (zeta : ℝ)
    (high_frequency : Bool) (method : String) :
    Except PyError ((List ℝ × List ℝ) × List RSEffect) := do
  let rs_func := rs_method_lookup method
  let frqs := get_default_frequencies high_frequency
  let res ← apply_rs_method rs_func acc time frqs zeta
  return ((res.1, frqs), [.print])

/-! ### Support lemmas for the integration theorems -/

theorem cumsum_cons_head (a : ℚ) (l : List ℚ) :
    (cumsum (a :: l)).head? = some a := by
  cases l <;> rfl

theorem trapezoidal_head (y : List ℚ) (x : Option (List ℚ)) (dx initial : ℚ) :
    (_cumulative_trapezoidal y x dx initial).head? = some initial := by
  unfold _cumulative_trapezoidal
  exact cumsum_cons_head _ _

theorem quad_head (y : List ℚ) (dx initial : ℚ) (r : List ℚ)
    (h : _cumulative_simpson_quad y dx initial = some r) :
    r.head? = some initial := by
  simp only [_cumulative_simpson_quad, Option.bind_eq_bind,
    Option.bind_eq_some, Option.pure_def, Option.some.injEq] at h
  obtain ⟨f0, _, bl, _, hr⟩ := h
  exact hr ▸ cumsum_cons_head _ _

theorem cubic_head (y : List ℚ) (dx initial : ℚ) (r : List ℚ)
    (h : _cumulative_simpson_cubic y dx initial = some r) :
    r.head? = some initial := by
  simp only [_cumulative_simpson_cubic, Option.bind_eq_bind,
    Option.bind_eq_some, Option.pure_def, Option.some.injEq] at h
  obtain ⟨f0, _, f1, _, m0, _, bm2, _, ml, _, bl, _, hr⟩ := h
  exact hr ▸ cumsum_cons_head _ _

theorem dispatch_head (method : String) (y : List ℚ) (dx initial : ℚ)
    (r : List ℚ) (h : integration_dispatch method y dx initial = .ok r) :
    r.head? = some initial := by
  unfold integration_dispatch at h
  split at h
  · injection h with h2
    exact h2 ▸ trapezoidal_head y none dx initial
  · split at h
    · split at h
      next r' heq =>
        injection h with h2
        exact h2 ▸ cubic_head y dx initial r' heq
      next heq => cases h
    · split at h
      next r' heq =>
        injection h with h2
        exact h2 ▸ quad_head y dx initial r' heq
      next heq => cases h

/-! ### Claim theorems about the integrator -/

/-- Claim C4: For every input sequence `y` of length at least 2, every
abscissa/step choice, every method name and every initial value, whenever
cumulative integration returns a sequence its first element equals the
initial value exactly. -/
theorem C4_integral_head_eq_initial (y : List ℚ) (x : Option (List ℚ))
    (dx initial : ℚ) (method : String) (r : List ℚ) (h2 : 2 ≤ y.length)
    (h : cumulative_integral y x dx initial method = .ok r) :
    r.head? = some initial := by
  simp only [cumulative_integral] at h
  split at h
  · cases h
  · split at h
    · split at h
      · cases h
      · split at h
        · injection h with h'
          exact h' ▸ trapezoidal_head _ _ _ _
        · exact dispatch_head _ _ _ _ _ h
    · exact dispatch_head _ _ _ _ _ h

/-- Witness for C4 at `y = [1, 2]`, `dx = 1`, `initial = 5`,
`method = "trapezoidal"`: the returned sequence starts with `5`. -/
theorem C4_witness :
    (_cumulative_trapezoidal [1, 2] none 1 5).head? = some (5 : ℚ) :=
  C4_integral_head_eq_initial [1, 2] none 1 5 "trapezoidal"
    (_cumulative_trapezoidal [1, 2] none 1 5) (by decide) rfl

/-- Claim C5: A single-sample input fails with the invalid-length error; every
two-sample input is integrated with the trapezoidal rule regardless of the
requested method (in particular "simpson 1/3" on two points equals
"trapezoidal" on the same two points); every three-sample input with method
"simpson 3/8" is downgraded to "simpson 1/3". -/
theorem C5_small_input_rules :
    (∀ (a : ℚ) (x : Option (List ℚ)) (dx initial : ℚ) (method : String),
      cumulative_integral [a] x dx initial method = .error .invalidLength) ∧
    (∀ (a b : ℚ) (x : Option (List ℚ)) (dx initial : ℚ) (method : String),
      cumulative_integral [a, b] x dx initial method =
        cumulative_integral [a, b] x dx initial "trapezoidal") ∧
    (∀ (a b c : ℚ) (x : Option (List ℚ)) (dx initial : ℚ),
      cumulative_integral [a, b, c] x dx initial "simpson 3/8" =
        cumulative_integral [a, b, c] x dx initial "simpson 1/3") :=
  ⟨fun _ _ _ _ _ => rfl, fun _ _ _ _ _ _ => rfl, fun _ _ _ _ _ _ => rfl⟩

/-- Claim C6: When an explicit abscissa of the same length as `y` is supplied
and its successive differences fail the 2% uniformity test, cumulative
integration with any requested method returns exactly the trapezoidal
result on the same data. -/
theorem C6_nonuniform_forces_trapezoidal (y xs : List ℚ) (dx initial : ℚ)
    (method : String) (hlen : xs.length = y.length) (h2 : 2 ≤ y.length)
    (hu : nonuniform_spacing xs = true) :
    cumulative_integral y (some xs) dx initial method =
      cumulative_integral y (some xs) dx initial "trapezoidal" := by
  have h1 : ¬ y.length = 1 := by omega
  simp only [cumulative_integral, h1, if_false, hlen, hu, ite_not,
    if_true, ne_eq, not_true_eq_false, ite_false, ite_true]

/-- Witness for C6 at the spec's own example
`integrate([1,2,3], x=[1,5,6])`. -/
theorem C6_witness :
    cumulative_integral [1, 2, 3] (some [1, 5, 6]) 1 0 "simpson 1/3" =
      cumulative_integral [1, 2, 3] (some [1, 5, 6]) 1 0 "trapezoidal" :=
  C6_nonuniform_forces_trapezoidal [1, 2, 3] [1, 5, 6] 1 0 "simpson 1/3"
    (by decide) (by decide)
    (by norm_num [nonuniform_spacing, npDiff, npMean, List.zip, List.zipWith])

/-- Claim C7 (code bug): The claim says `"simpson 3/8"` succeeds on every
uniformly spaced input of length at least 4.  Evaluating the code at the
failing input `y = [0,1,2,3]`: `_cumulative_simpson_cubic` accesses
`sub_integrals_fwd[1]` and `bwd[-2]` in arrays of length `len y - 3 = 1`,
so numpy raises `IndexError` and no sequence is returned; with five samples
the call succeeds with a length-5 result, matching the source docstring
"Assumes length of y > 4". -/
theorem C7_simpson38_len4_index_error :
    cumulative_integral [0, 1, 2, 3] none 1 0 "simpson 3/8"
        = .error .indexError ∧
    (cumulative_integral [0, 1, 2, 3, 4] none 1 0 "simpson 3/8").map
        List.length = .ok 5 := by
  constructor <;> rfl

/-! ### Evaluation lemmas for the binary64 model -/

theorem roundTE_low (q : ℚ) (f : ℤ) (h1 : (f : ℚ) ≤ q) (h2 : q < f + 1/2) :
    roundTiesEven q = f := by
  have hf : ⌊q⌋ = f := Int.floor_eq_iff.mpr ⟨h1, by push_cast; linarith⟩
  unfold roundTiesEven
  rw [hf, if_pos (by push_cast; linarith)]

theorem roundTE_high (q : ℚ) (f g : ℤ) (h1 : (f : ℚ) + 1/2 < q)
    (h2 : q < f + 1) (hg : f + 1 = g) : roundTiesEven q = g := by
  have hf : ⌊q⌋ = f := Int.floor_eq_iff.mpr ⟨by linarith, by push_cast; linarith⟩
  unfold roundTiesEven
  rw [hf, if_neg (by push_cast; linarith), if_pos (by push_cast; linarith), hg]

theorem roundTE_int (m : ℤ) : roundTiesEven (m : ℚ) = m :=
  roundTE_low _ m le_rfl (by linarith)

theorem floorLog2_eq (q : ℚ) (k : ℕ) (e : ℤ) (hek : (k:ℤ) = e + 120)
    (h0 : 0 < q) (hlo : (2:ℚ) ^ k ≤ q * 2 ^ (120:ℕ))
    (hhi : q * 2 ^ (120:ℕ) < 2 ^ (k + 1)) : floorLog2 q = e := by
  have hN0 : (0:ℤ) ≤ ⌊q * 2 ^ (120:ℕ)⌋ := Int.floor_nonneg.mpr (by positivity)
  have h1 : ((2:ℕ) ^ k : ℤ) ≤ ⌊q * 2 ^ (120:ℕ)⌋ := by
    rw [Int.le_floor]; exact_mod_cast hlo
  have h2 : ⌊q * 2 ^ (120:ℕ)⌋ < ((2:ℕ) ^ (k + 1) : ℤ) := by
    rw [Int.floor_lt]; exact_mod_cast hhi
  have h3 : (2:ℕ) ^ k ≤ Int.toNat ⌊q * 2 ^ (120:ℕ)⌋ := by omega
  have h4 : Int.toNat ⌊q * 2 ^ (120:ℕ)⌋ < 2 ^ (k + 1) := by omega
  have hlog := Nat.log_eq_of_pow_le_of_lt_pow h3 h4
  unfold floorLog2
  omega

theorem fl_eval (q : ℚ) (k : ℕ) (e m : ℤ) (v : ℚ) (h0 : 0 < q)
    (hek : (k:ℤ) = e + 120)
    (hlo : (2:ℚ) ^ k ≤ q * 2 ^ (120:ℕ))
    (hhi : q * 2 ^ (120:ℕ) < 2 ^ (k + 1))
    (hm : roundTiesEven (q * 2 ^ ((52:ℤ) - e)) = m)
    (hv : (m : ℚ) * 2 ^ (e - (52:ℤ)) = v) : fl q = v := by
  unfold fl
  rw [if_neg (ne_of_gt h0), if_neg (not_lt.mpr h0.le), abs_of_pos h0,
    floorLog2_eq q k e hek h0 hlo hhi, hm, one_mul, hv]

theorem fl_exact (q : ℚ) (k : ℕ) (e m : ℤ) (h0 : 0 < q)
    (hek : (k:ℤ) = e + 120)
    (hlo : (2:ℚ) ^ k ≤ q * 2 ^ (120:ℕ))
    (hhi : q * 2 ^ (120:ℕ) < 2 ^ (k + 1))
    (hq : (m : ℚ) = q * 2 ^ ((52:ℤ) - e)) : fl q = q := by
  apply fl_eval q k e m q h0 hek hlo hhi (by rw [← hq, roundTE_int])
  rw [hq, mul_assoc, ← zpow_add₀ (two_ne_zero (α := ℚ))]
  norm_num

theorem fl_zero : fl 0 = 0 := by
  unfold fl
  rw [if_pos rfl]

/-! ### Concrete binary64 values of the ASME grid construction

Constants below are the exact rational values of the binary64 numbers
involved; each is certified against the `fl` definition. -/

theorem ceil_toNat_eq (r : ℚ) (n : ℕ) (h1 : (n:ℚ) - 1 < r) (h2 : r ≤ n) :
    (⌈r⌉).toNat = n := by
  have hc : ⌈r⌉ = (n:ℤ) :=
    Int.ceil_eq_iff.mpr ⟨by push_cast; linarith, by exact_mod_cast h2⟩
  omega

theorem dmul_zero (b : ℚ) : dmul 0 b = 0 := by
  unfold dmul
  rw [zero_mul]
  exact fl_zero

theorem fl_lit_0p1 : fl (1 / 10) = 3602879701896397 / 36028797018963968 :=
  fl_eval (1 / 10) 116 (-4) 7205759403792794 (3602879701896397 / 36028797018963968) (by norm_num) (by norm_num) (by norm_num) (by norm_num)
    (roundTE_high _ 7205759403792793 7205759403792794 (by norm_num) (by norm_num) (by norm_num)) (by norm_num)

theorem fl_lit_0p15 : fl (3 / 20) = 5404319552844595 / 36028797018963968 :=
  fl_eval (3 / 20) 117 (-3) 5404319552844595 (5404319552844595 / 36028797018963968) (by norm_num) (by norm_num) (by norm_num) (by norm_num)
    (roundTE_low _ 5404319552844595 (by norm_num) (by norm_num)) (by norm_num)

theorem fl_lit_0p2 : fl (1 / 5) = 3602879701896397 / 18014398509481984 :=
  fl_eval (1 / 5) 117 (-3) 7205759403792794 (3602879701896397 / 18014398509481984) (by norm_num) (by norm_num) (by norm_num) (by norm_num)
    (roundTE_high _ 7205759403792793 7205759403792794 (by norm_num) (by norm_num) (by norm_num)) (by norm_num)

theorem fl_lit_0p25 : fl (1 / 4) = 1 / 4 :=
  fl_exact (1 / 4) 118 (-2) 4503599627370496 (by norm_num) (by norm_num) (by norm_num) (by norm_num) (by norm_num)

theorem fl_lit_0p5 : fl (1 / 2) = 1 / 2 :=
  fl_exact (1 / 2) 119 (-1) 4503599627370496 (by norm_num) (by norm_num) (by norm_num) (by norm_num) (by norm_num)

theorem fl_lit_1 : fl (1) = 1 :=
  fl_exact (1) 120 (0) 4503599627370496 (by norm_num) (by norm_num) (by norm_num) (by norm_num) (by norm_num)

theorem fl_lit_2 : fl (2) = 2 :=
  fl_exact (2) 121 (1) 4503599627370496 (by norm_num) (by norm_num) (by norm_num) (by norm_num) (by norm_num)

theorem fl_lit_3 : fl (3) = 3 :=
  fl_exact (3) 121 (1) 6755399441055744 (by norm_num) (by norm_num) (by norm_num) (by norm_num) (by norm_num)

theorem fl_lit_3p6 : fl (18 / 5) = 8106479329266893 / 2251799813685248 :=
  fl_eval (18 / 5) 121 (1) 8106479329266893 (8106479329266893 / 2251799813685248) (by norm_num) (by norm_num) (by norm_num) (by norm_num)
    (roundTE_high _ 8106479329266892 8106479329266893 (by norm_num) (by norm_num) (by norm_num)) (by norm_num)

theorem fl_lit_5 : fl (5) = 5 :=
  fl_exact (5) 122 (2) 5629499534213120 (by norm_num) (by norm_num) (by norm_num) (by norm_num) (by norm_num)

theorem fl_lit_8 : fl (8) = 8 :=
  fl_exact (8) 123 (3) 4503599627370496 (by norm_num) (by norm_num) (by norm_num) (by norm_num) (by norm_num)

theorem fl_lit_15 : fl (15) = 15 :=
  fl_exact (15) 123 (3) 8444249301319680 (by norm_num) (by norm_num) (by norm_num) (by norm_num) (by norm_num)

theorem fl_lit_18 : fl (18) = 18 :=
  fl_exact (18) 124 (4) 5066549580791808 (by norm_num) (by norm_num) (by norm_num) (by norm_num) (by norm_num)

theorem fl_lit_22 : fl (22) = 22 :=
  fl_exact (22) 124 (4) 6192449487634432 (by norm_num) (by norm_num) (by norm_num) (by norm_num) (by norm_num)

theorem fl_lit_34 : fl (34) = 34 :=
  fl_exact (34) 125 (5) 4785074604081152 (by norm_num) (by norm_num) (by norm_num) (by norm_num) (by norm_num)

theorem seg1_dsub : dsub (3) (3602879701896397 / 36028797018963968) = 6530219459687219 / 2251799813685248 := by
  unfold dsub
  rw [show (3) - (3602879701896397 / 36028797018963968) = (104483511354995507 / 36028797018963968 : ℚ) from by norm_num]
  exact fl_eval (104483511354995507 / 36028797018963968) 121 (1) 6530219459687219 (6530219459687219 / 2251799813685248) (by norm_num) (by norm_num) (by norm_num) (by norm_num)
    (roundTE_low _ 6530219459687219 (by norm_num) (by norm_num)) (by norm_num)

theorem seg1_ddiv : ddiv (6530219459687219 / 2251799813685248) (3602879701896397 / 36028797018963968) = 8162774324609023 / 281474976710656 := by
  unfold ddiv
  rw [show (6530219459687219 / 2251799813685248) / (3602879701896397 / 36028797018963968) = (104483511354995504 / 3602879701896397 : ℚ) from by norm_num]
  exact fl_eval (104483511354995504 / 3602879701896397) 124 (4) 8162774324609023 (8162774324609023 / 281474976710656) (by norm_num) (by norm_num) (by norm_num) (by norm_num)
    (roundTE_low _ 8162774324609023 (by norm_num) (by norm_num)) (by norm_num)

theorem seg1_fp_len :
    (arange_fp (fl (1 / 10)) (fl (3)) (fl (1 / 10))).length = 29 := by
  unfold arange_fp
  rw [List.length_map, List.length_range, fl_lit_3, fl_lit_0p1, seg1_dsub, seg1_ddiv]
  exact ceil_toNat_eq (8162774324609023 / 281474976710656) 29 (by norm_num) (by norm_num)

theorem seg2_dsub : dsub (8106479329266893 / 2251799813685248) (3) = 1351079888211149 / 2251799813685248 := by
  unfold dsub
  rw [show (8106479329266893 / 2251799813685248) - (3) = (1351079888211149 / 2251799813685248 : ℚ) from by norm_num]
  exact fl_exact (1351079888211149 / 2251799813685248) 119 (-1) 5404319552844596 (by norm_num) (by norm_num) (by norm_num) (by norm_num) (by norm_num)

theorem seg2_ddiv : ddiv (1351079888211149 / 2251799813685248) (5404319552844595 / 36028797018963968) = 4503599627370497 / 1125899906842624 := by
  unfold ddiv
  rw [show (1351079888211149 / 2251799813685248) / (5404319552844595 / 36028797018963968) = (21617278211378384 / 5404319552844595 : ℚ) from by norm_num]
  exact fl_eval (21617278211378384 / 5404319552844595) 122 (2) 4503599627370497 (4503599627370497 / 1125899906842624) (by norm_num) (by norm_num) (by norm_num) (by norm_num)
    (roundTE_high _ 4503599627370496 4503599627370497 (by norm_num) (by norm_num) (by norm_num)) (by norm_num)

theorem seg2_fp_len :
    (arange_fp (fl (3)) (fl (18 / 5)) (fl (3 / 20))).length = 5 := by
  unfold arange_fp
  rw [List.length_map, List.length_range, fl_lit_3p6, fl_lit_3, fl_lit_0p15, seg2_dsub, seg2_ddiv]
  exact ceil_toNat_eq (4503599627370497 / 1125899906842624) 5 (by norm_num) (by norm_num)

theorem seg3_dsub : dsub (5) (8106479329266893 / 2251799813685248) = 3152519739159347 / 2251799813685248 := by
  unfold dsub
  rw [show (5) - (8106479329266893 / 2251799813685248) = (3152519739159347 / 2251799813685248 : ℚ) from by norm_num]
  exact fl_exact (3152519739159347 / 2251799813685248) 120 (0) 6305039478318694 (by norm_num) (by norm_num) (by norm_num) (by norm_num) (by norm_num)

theorem seg3_ddiv : ddiv (3152519739159347 / 2251799813685248) (3602879701896397 / 18014398509481984) = 7881299347898367 / 1125899906842624 := by
  unfold ddiv
  rw [show (3152519739159347 / 2251799813685248) / (3602879701896397 / 18014398509481984) = (25220157913274776 / 3602879701896397 : ℚ) from by norm_num]
  exact fl_eval (25220157913274776 / 3602879701896397) 122 (2) 7881299347898367 (7881299347898367 / 1125899906842624) (by norm_num) (by norm_num) (by norm_num) (by norm_num)
    (roundTE_low _ 7881299347898367 (by norm_num) (by norm_num)) (by norm_num)

theorem seg3_fp_len :
    (arange_fp (fl (18 / 5)) (fl (5)) (fl (1 / 5))).length = 7 := by
  unfold arange_fp
  rw [List.length_map, List.length_range, fl_lit_5, fl_lit_3p6, fl_lit_0p2, seg3_dsub, seg3_ddiv]
  exact ceil_toNat_eq (7881299347898367 / 1125899906842624) 7 (by norm_num) (by norm_num)

theorem seg4_dsub : dsub (8) (5) = 3 := by
  unfold dsub
  rw [show (8) - (5) = (3 : ℚ) from by norm_num]
  exact fl_exact (3) 121 (1) 6755399441055744 (by norm_num) (by norm_num) (by norm_num) (by norm_num) (by norm_num)

theorem seg4_ddiv : ddiv (3) (1 / 4) = 12 := by
  unfold ddiv
  rw [show (3) / (1 / 4) = (12 : ℚ) from by norm_num]
  exact fl_exact (12) 123 (3) 6755399441055744 (by norm_num) (by norm_num) (by norm_num) (by norm_num) (by norm_num)

theorem seg4_fp_len :
    (arange_fp (fl (5)) (fl (8)) (fl (1 / 4))).length = 12 := by
  unfold arange_fp
  rw [List.length_map, List.length_range, fl_lit_8, fl_lit_5, fl_lit_0p25, seg4_dsub, seg4_ddiv]
  exact ceil_toNat_eq (12) 12 (by norm_num) (by norm_num)

theorem seg5_dsub : dsub (15) (8) = 7 := by
  unfold dsub
  rw [show (15) - (8) = (7 : ℚ) from by norm_num]
  exact fl_exact (7) 122 (2) 7881299347898368 (by norm_num) (by norm_num) (by norm_num) (by norm_num) (by norm_num)

theorem seg5_ddiv : ddiv (7) (1 / 2) = 14 := by
  unfold ddiv
  rw [show (7) / (1 / 2) = (14 : ℚ) from by norm_num]
  exact fl_exact (14) 123 (3) 7881299347898368 (by norm_num) (by norm_num) (by norm_num) (by norm_num) (by norm_num)

theorem seg5_fp_len :
    (arange_fp (fl (8)) (fl (15)) (fl (1 / 2))).length = 14 := by
  unfold arange_fp
  rw [List.length_map, List.length_range, fl_lit_15, fl_lit_8, fl_lit_0p5, seg5_dsub, seg5_ddiv]
  exact ceil_toNat_eq (14) 14 (by norm_num) (by norm_num)

theorem seg6_dsub : dsub (18) (15) = 3 := by
  unfold dsub
  rw [show (18) - (15) = (3 : ℚ) from by norm_num]
  exact fl_exact (3) 121 (1) 6755399441055744 (by norm_num) (by norm_num) (by norm_num) (by norm_num) (by norm_num)

theorem seg6_ddiv : ddiv (3) (1) = 3 := by
  unfold ddiv
  rw [show (3) / (1) = (3 : ℚ) from by norm_num]
  exact fl_exact (3) 121 (1) 6755399441055744 (by norm_num) (by norm_num) (by norm_num) (by norm_num) (by norm_num)

theorem seg6_fp_len :
    (arange_fp (fl (15)) (fl (18)) (fl (1))).length = 3 := by
  unfold arange_fp
  rw [List.length_map, List.length_range, fl_lit_18, fl_lit_15, fl_lit_1, seg6_dsub, seg6_ddiv]
  exact ceil_toNat_eq (3) 3 (by norm_num) (by norm_num)

theorem seg7_dsub : dsub (22) (18) = 4 := by
  unfold dsub
  rw [show (22) - (18) = (4 : ℚ) from by norm_num]
  exact fl_exact (4) 122 (2) 4503599627370496 (by norm_num) (by norm_num) (by norm_num) (by norm_num) (by norm_num)

theorem seg7_ddiv : ddiv (4) (2) = 2 := by
  unfold ddiv
  rw [show (4) / (2) = (2 : ℚ) from by norm_num]
  exact fl_exact (2) 121 (1) 4503599627370496 (by norm_num) (by norm_num) (by norm_num) (by norm_num) (by norm_num)

theorem seg7_fp_len :
    (arange_fp (fl (18)) (fl (22)) (fl (2))).length = 2 := by
  unfold arange_fp
  rw [List.length_map, List.length_range, fl_lit_22, fl_lit_18, fl_lit_2, seg7_dsub, seg7_ddiv]
  exact ceil_toNat_eq (2) 2 (by norm_num) (by norm_num)

theorem seg8_dsub : dsub (34) (22) = 12 := by
  unfold dsub
  rw [show (34) - (22) = (12 : ℚ) from by norm_num]
  exact fl_exact (12) 123 (3) 6755399441055744 (by norm_num) (by norm_num) (by norm_num) (by norm_num) (by norm_num)

theorem seg8_ddiv : ddiv (12) (3) = 4 := by
  unfold ddiv
  rw [show (12) / (3) = (4 : ℚ) from by norm_num]
  exact fl_exact (4) 122 (2) 4503599627370496 (by norm_num) (by norm_num) (by norm_num) (by norm_num) (by norm_num)

theorem seg8_fp_len :
    (arange_fp (fl (22)) (fl (34)) (fl (3))).length = 4 := by
  unfold arange_fp
  rw [List.length_map, List.length_range, fl_lit_34, fl_lit_22, fl_lit_3, seg8_dsub, seg8_ddiv]
  exact ceil_toNat_eq (4) 4 (by norm_num) (by norm_num)

theorem entry33_dmul : dmul (4) (5404319552844595 / 36028797018963968) = 5404319552844595 / 9007199254740992 := by
  unfold dmul
  rw [show (4) * (5404319552844595 / 36028797018963968) = (5404319552844595 / 9007199254740992 : ℚ) from by norm_num]
  exact fl_exact (5404319552844595 / 9007199254740992) 119 (-1) 5404319552844595 (by norm_num) (by norm_num) (by norm_num) (by norm_num) (by norm_num)

theorem entry33_dadd : dadd (3) (5404319552844595 / 9007199254740992) = 8106479329266893 / 2251799813685248 := by
  unfold dadd
  rw [show (3) + (5404319552844595 / 9007199254740992) = (32425917317067571 / 9007199254740992 : ℚ) from by norm_num]
  exact fl_eval (32425917317067571 / 9007199254740992) 121 (1) 8106479329266893 (8106479329266893 / 2251799813685248) (by norm_num) (by norm_num) (by norm_num) (by norm_num)
    (roundTE_high _ 8106479329266892 8106479329266893 (by norm_num) (by norm_num) (by norm_num)) (by norm_num)

theorem entry34_dadd : dadd (8106479329266893 / 2251799813685248) (0) = 8106479329266893 / 2251799813685248 := by
  unfold dadd
  rw [show (8106479329266893 / 2251799813685248) + (0) = (8106479329266893 / 2251799813685248 : ℚ) from by norm_num]
  exact fl_exact (8106479329266893 / 2251799813685248) 121 (1) 8106479329266893 (by norm_num) (by norm_num) (by norm_num) (by norm_num) (by norm_num)

/-! ### Structure of the binary64 ASME grid -/

theorem arange_fp_get? (start stop step : ℚ) (i : ℕ)
    (h : i < (arange_fp start stop step).length) :
    (arange_fp start stop step).get? i =
      some (dadd start (dmul (i : ℚ) step)) := by
  unfold arange_fp at h ⊢
  rw [List.length_map, List.length_range] at h
  rw [List.get?_map, List.get?_range h]
  rfl

theorem asme_fp_decomp :
    get_asme_frequencies_fp =
      arange_fp (fl (1/10)) (fl 3) (fl (1/10)) ++
      (arange_fp (fl 3) (fl (18/5)) (fl (3/20)) ++
      (arange_fp (fl (18/5)) (fl 5) (fl (1/5)) ++
      (arange_fp (fl 5) (fl 8) (fl (1/4)) ++
      (arange_fp (fl 8) (fl 15) (fl (1/2)) ++
      (arange_fp (fl 15) (fl 18) (fl 1) ++
      (arange_fp (fl 18) (fl 22) (fl 2) ++
      (arange_fp (fl 22) (fl 34) (fl 3) ++ [fl 34]))))))) := by
  rw [get_asme_frequencies_fp, asme_range_table]
  rw [List.map_cons, List.map_cons, List.map_cons, List.map_cons,
    List.map_cons, List.map_cons, List.map_cons, List.map_cons, List.map_nil]
  rw [List.flatten_cons, List.flatten_cons, List.flatten_cons,
    List.flatten_cons, List.flatten_cons, List.flatten_cons,
    List.flatten_cons, List.flatten_cons, List.flatten_nil]
  rw [List.append_nil]
  simp only [List.append_assoc]

theorem asme_fp_len : get_asme_frequencies_fp.length = 77 := by
  rw [asme_fp_decomp]
  rw [List.length_append, List.length_append, List.length_append,
    List.length_append, List.length_append, List.length_append,
    List.length_append, List.length_append]
  rw [seg1_fp_len, seg2_fp_len, seg3_fp_len, seg4_fp_len, seg5_fp_len,
    seg6_fp_len, seg7_fp_len, seg8_fp_len]
  rfl

theorem asme_fp_33 : get_asme_frequencies_fp.get? 33 = some (fl (18/5)) := by
  rw [asme_fp_decomp,
    List.get?_append_right (by rw [seg1_fp_len]; norm_num), seg1_fp_len]
  rw [show 33 - 29 = 4 from rfl]
  rw [List.get?_append (by rw [seg2_fp_len]; norm_num)]
  rw [arange_fp_get? _ _ _ 4 (by rw [seg2_fp_len]; norm_num)]
  rw [fl_lit_3, fl_lit_0p15, fl_lit_3p6]
  rw [show ((4:ℕ):ℚ) = 4 from by norm_num, entry33_dmul, entry33_dadd]

theorem asme_fp_34 : get_asme_frequencies_fp.get? 34 = some (fl (18/5)) := by
  rw [asme_fp_decomp,
    List.get?_append_right (by rw [seg1_fp_len]; norm_num), seg1_fp_len]
  rw [show 34 - 29 = 5 from rfl]
  rw [List.get?_append_right (by rw [seg2_fp_len]), seg2_fp_len]
  rw [show 5 - 5 = 0 from rfl]
  rw [List.get?_append (by rw [seg3_fp_len]; norm_num)]
  rw [arange_fp_get? _ _ _ 0 (by rw [seg3_fp_len]; norm_num)]
  rw [show ((0:ℕ):ℚ) = 0 from by norm_num]
  rw [dmul_zero, fl_lit_3p6, entry34_dadd]

theorem asme_fp_not_strictly_ascending :
    ¬ List.Chain' (· < ·) get_asme_frequencies_fp := by
  intro h
  have h33 := asme_fp_33
  have h34 := asme_fp_34
  have hlen := asme_fp_len
  have hi : 33 < get_asme_frequencies_fp.length - 1 := by omega
  have hstep := List.chain'_iff_get.mp h 33 hi
  rw [List.get?_eq_get (by omega)] at h33
  rw [List.get?_eq_get (by omega)] at h34
  rw [Option.some.injEq] at h33 h34
  rw [h33, h34] at hstep
  exact lt_irrefl _ hstep

/-! ### Structure of the exact-arithmetic ASME grid -/

theorem arange_eq (start stop step : ℚ) (n : ℕ)
    (h : (stop - start) / step = n) :
    arange start stop step =
      (List.range n).map fun (i : ℕ) => start + (i : ℚ) * step := by
  unfold arange
  rw [h, Int.ceil_natCast, Int.toNat_natCast]

theorem asme_eq :
    get_asme_frequencies =
      ((List.range 29).map fun (i : ℕ) => 1/10 + (i : ℚ) * (1/10)) ++
      (((List.range 4).map fun (i : ℕ) => 3 + (i : ℚ) * (3/20)) ++
      (((List.range 7).map fun (i : ℕ) => 18/5 + (i : ℚ) * (1/5)) ++
      (((List.range 12).map fun (i : ℕ) => 5 + (i : ℚ) * (1/4)) ++
      (((List.range 14).map fun (i : ℕ) => 8 + (i : ℚ) * (1/2)) ++
      (((List.range 3).map fun (i : ℕ) => 15 + (i : ℚ) * 1) ++
      (((List.range 2).map fun (i : ℕ) => 18 + (i : ℚ) * 2) ++
      (((List.range 4).map fun (i : ℕ) => 22 + (i : ℚ) * 3) ++
        [34]))))))) := by
  rw [get_asme_frequencies, asme_range_table]
  simp only [List.map_cons, List.map_nil, List.flatten_cons,
    List.flatten_nil, List.append_nil]
  rw [arange_eq (1/10) 3 (1/10) 29 (by norm_num),
    arange_eq 3 (18/5) (3/20) 4 (by norm_num),
    arange_eq (18/5) 5 (1/5) 7 (by norm_num),
    arange_eq 5 8 (1/4) 12 (by norm_num),
    arange_eq 8 15 (1/2) 14 (by norm_num),
    arange_eq 15 18 1 3 (by norm_num),
    arange_eq 18 22 2 2 (by norm_num),
    arange_eq 22 34 3 4 (by norm_num)]
  simp only [List.append_assoc]

theorem asme_len : get_asme_frequencies.length = 76 := by
  rw [asme_eq]
  rw [List.length_append, List.length_append, List.length_append,
    List.length_append, List.length_append, List.length_append,
    List.length_append, List.length_append]
  rw [List.length_map, List.length_map, List.length_map, List.length_map,
    List.length_map, List.length_map, List.length_map, List.length_map]
  rfl

theorem asme_head : get_asme_frequencies.head? = some (1/10) := by
  rw [asme_eq]
  rw [List.head?_append_of_ne_nil _ (by simp)]
  rw [show (29:ℕ) = Nat.succ 28 from rfl, List.range_succ_eq_map,
    List.map_cons, List.head?_cons]
  norm_num

theorem asme_last : get_asme_frequencies.getLast? = some 34 := by
  rw [asme_eq]
  rw [List.getLast?_append_of_ne_nil _ (by simp),
    List.getLast?_append_of_ne_nil _ (by simp),
    List.getLast?_append_of_ne_nil _ (by simp),
    List.getLast?_append_of_ne_nil _ (by simp),
    List.getLast?_append_of_ne_nil _ (by simp),
    List.getLast?_append_of_ne_nil _ (by simp),
    List.getLast?_append_of_ne_nil _ (by simp),
    List.getLast?_append_of_ne_nil _ (by simp)]
  rfl

theorem range_map_head {α : Type} (f : ℕ → α) (n : ℕ) (h : n ≠ 0) :
    ((List.range n).map f).head? = some (f 0) := by
  obtain ⟨m, rfl⟩ := Nat.exists_eq_succ_of_ne_zero h
  rw [List.range_succ_eq_map, List.map_cons, List.head?_cons]

theorem range_map_getLast {α : Type} (f : ℕ → α) (n m : ℕ) (h : n = m + 1) :
    ((List.range n).map f).getLast? = some (f m) := by
  subst h
  rw [show m + 1 = Nat.succ m from rfl, List.range_succ, List.map_append,
    List.map_cons, List.map_nil, List.getLast?_concat]

theorem range_map_chain {α : Type} (R : α → α → Prop) (f : ℕ → α) (n : ℕ)
    (h : ∀ i, i + 1 < n → R (f i) (f (i + 1))) :
    List.Chain' R ((List.range n).map f) := by
  rw [List.chain'_map]
  cases n with
  | zero => simp
  | succ m =>
    rw [show m + 1 = Nat.succ m from rfl, List.chain'_range_succ]
    exact fun i hi => h i (by omega)

/-- An arithmetic progression with positive step is strictly ascending. -/
theorem ap_chain (a d : ℚ) (hd : 0 < d) (n : ℕ) :
    List.Chain' (· < ·) ((List.range n).map fun (i : ℕ) => a + (i : ℚ) * d) :=
  range_map_chain _ _ n fun i _ => by
    push_cast
    nlinarith [hd]

/-- Prepend one `np.arange` segment to a strictly ascending list whose head
exceeds the segment's last element; returns the new chain and head facts. -/
theorem chain_seg_cons (a d : ℚ) (n m : ℕ) (hnm : n = m + 1) (hd : 0 < d)
    {L : List ℚ} (v : ℚ) (hL : List.Chain' (· < ·) L ∧ L.head? = some v)
    (hlt : a + m * d < v) :
    List.Chain' (· < ·)
        (((List.range n).map fun (i : ℕ) => a + (i : ℚ) * d) ++ L) ∧
      ((((List.range n).map fun (i : ℕ) => a + (i : ℚ) * d) ++ L)).head? =
        some a := by
  constructor
  · refine List.chain'_append.mpr ⟨ap_chain a d hd n, hL.1, ?_⟩
    intro x hx y hy
    rw [range_map_getLast _ n m hnm, Option.mem_def, Option.some.injEq] at hx
    rw [hL.2, Option.mem_def, Option.some.injEq] at hy
    rw [← hx, ← hy]
    exact hlt
  · rw [List.head?_append_of_ne_nil _ (by simp [hnm, List.range_eq_nil]),
      range_map_head _ _ (by omega)]
    norm_num

theorem asme_chain_head :
    List.Chain' (· < ·) get_asme_frequencies ∧
      get_asme_frequencies.head? = some (1/10) := by
  rw [asme_eq]
  have h8 := chain_seg_cons 22 3 4 3 (by norm_num) (by norm_num) 34
    ⟨List.chain'_singleton 34, rfl⟩ (by norm_num)
  have h7 := chain_seg_cons 18 2 2 1 (by norm_num) (by norm_num) 22 h8
    (by norm_num)
  have h6 := chain_seg_cons 15 1 3 2 (by norm_num) (by norm_num) 18 h7
    (by norm_num)
  have h5 := chain_seg_cons 8 (1/2) 14 13 (by norm_num) (by norm_num) 15 h6
    (by norm_num)
  have h4 := chain_seg_cons 5 (1/4) 12 11 (by norm_num) (by norm_num) 8 h5
    (by norm_num)
  have h3 := chain_seg_cons (18/5) (1/5) 7 6 (by norm_num) (by norm_num) 5 h4
    (by norm_num)
  have h2 := chain_seg_cons 3 (3/20) 4 3 (by norm_num) (by norm_num) (18/5)
    h3 (by norm_num)
  exact chain_seg_cons (1/10) (1/10) 29 28 (by norm_num) (by norm_num) 3 h2
    (by norm_num)

/-! ### The rounded geometric extensions of `get_default_frequencies` -/

theorem geomspace_eq (a b : ℝ) (n : ℕ) :
    geomspace a b (n + 1) =
      (List.range (n + 1)).map fun (i : ℕ) =>
        a * (b / a) ^ ((i : ℝ) / (n : ℝ)) := by
  unfold geomspace
  apply List.map_congr_left
  intro i _
  congr 2
  push_cast
  ring

theorem ext_eq (a b : ℝ) (n : ℕ) :
    ((geomspace a b (n + 1)).drop 1).map roundR =
      (List.range n).map fun (i : ℕ) =>
        roundR (a * (b / a) ^ (((i + 1 : ℕ) : ℝ) / (n : ℝ))) := by
  rw [geomspace_eq a b n]
  rw [show n + 1 = Nat.succ n from rfl, List.range_succ_eq_map, List.map_cons]
  rw [List.drop_one, List.tail_cons, List.map_map, List.map_map]
  apply List.map_congr_left
  intro i _
  simp only [Function.comp_apply]

/-- Consecutive points of the geometric sequence `a·(b/a)^(j/n)` are more
than 1 apart whenever `((a+1)/a)^n < b/a`. -/
theorem geom_gap (a b : ℝ) (n : ℕ) (hn : n ≠ 0) (ha : 0 < a)
    (key : ((a + 1) / a) ^ n < b / a) (j : ℕ) :
    a * (b / a) ^ ((j : ℝ) / (n : ℝ)) + 1 <
      a * (b / a) ^ (((j : ℝ) + 1) / (n : ℝ)) := by
  set c := b / a with hc
  have ha1 : (1:ℝ) < (a + 1) / a := by
    rw [lt_div_iff ha]; linarith
  have hcpos : (0:ℝ) ≤ ((a + 1) / a) ^ n := by positivity
  have hc1 : (1:ℝ) < c := lt_trans (one_lt_pow₀ ha1 hn) key
  have hnR : (0:ℝ) < (n : ℝ) := by exact_mod_cast Nat.pos_of_ne_zero hn
  have hroot : (a + 1) / a < c ^ ((1:ℝ) / (n : ℝ)) := by
    have h1 := Real.rpow_lt_rpow hcpos key (by positivity : (0:ℝ) < 1 / (n:ℝ))
    rwa [← Real.rpow_natCast ((a + 1) / a) n, ← Real.rpow_mul (by positivity),
      mul_one_div, div_self (ne_of_gt hnR), Real.rpow_one] at h1
  have hr1 : (1:ℝ) < c ^ ((1:ℝ) / (n : ℝ)) := lt_trans ha1 hroot
  have hge : (1:ℝ) ≤ c ^ ((j : ℝ) / (n : ℝ)) := by
    have h0 : c ^ (0:ℝ) ≤ c ^ ((j : ℝ) / (n : ℝ)) :=
      Real.rpow_le_rpow_of_exponent_le (le_of_lt hc1) (by positivity)
    rwa [Real.rpow_zero] at h0
  have hsplit : c ^ (((j : ℝ) + 1) / (n : ℝ)) =
      c ^ ((j : ℝ) / (n : ℝ)) * c ^ ((1:ℝ) / (n : ℝ)) := by
    rw [← Real.rpow_add (lt_trans one_pos hc1)]
    congr 1
    field_simp
  rw [hsplit]
  have ha1a : a * ((a + 1) / a) = a + 1 := by field_simp
  have har : a + 1 < a * c ^ ((1:ℝ) / (n : ℝ)) := by
    nlinarith [mul_pos ha (sub_pos.mpr hroot)]
  nlinarith [har, hge, ha, hr1,
    mul_nonneg (mul_nonneg ha.le (sub_nonneg.mpr hge))
      (sub_nonneg.mpr hr1.le)]

theorem round_lt_round_of_gap (x y : ℝ) (h : x + 1 < y) :
    round x < round y := by
  have hx := abs_sub_round x
  have hy := abs_sub_round y
  rw [abs_le] at hx hy
  have : (round x : ℝ) < (round y : ℝ) := by linarith [hx.1, hx.2, hy.1, hy.2]
  exact_mod_cast this

theorem geom_last_val (a b : ℝ) (n : ℕ) (hn : n ≠ 0) (ha : a ≠ 0) :
    a * (b / a) ^ (((n : ℕ) : ℝ) / (n : ℝ)) = b := by
  rw [div_self (by exact_mod_cast hn : ((n : ℕ) : ℝ) ≠ 0), Real.rpow_one]
  field_simp

theorem roundR_intCast (m : ℤ) : roundR ((m : ℤ) : ℝ) = m := by
  unfold roundR
  rw [round_intCast]

theorem asmeR_last :
    (get_asme_frequencies.map fun q => ((q : ℚ) : ℝ)).getLastD 0 = 34 := by
  rw [List.getLastD_eq_getLast?, List.getLast?_map, asme_last]
  norm_num

theorem default_false_eq :
    get_default_frequencies false =
      (get_asme_frequencies.map fun (q : ℚ) => (q : ℝ)) ++
        ((List.range 24).map fun (i : ℕ) =>
          roundR ((34:ℝ) * ((100:ℝ) / 34) ^ (((i + 1 : ℕ) : ℝ) / ((24 : ℕ) : ℝ)))) := by
  simp only [get_default_frequencies, Bool.false_eq_true, if_false]
  rw [List.length_map, asme_len, show (100 - 76 : ℕ) = 24 from rfl, asmeR_last]
  rw [ext_eq (34:ℝ) 100 24]

theorem default_false_len : (get_default_frequencies false).length = 100 := by
  rw [default_false_eq, List.length_append, List.length_map, List.length_map,
    List.length_range, asme_len]

theorem default_false_last :
    (get_default_frequencies false).getLast? = some 100 := by
  rw [default_false_eq, List.getLast?_append_of_ne_nil _ (by simp)]
  rw [range_map_getLast _ 24 23 rfl]
  rw [show ((23 + 1 : ℕ) : ℝ) = ((24 : ℕ) : ℝ) from by norm_num]
  rw [geom_last_val 34 100 24 (by norm_num) (by norm_num)]
  rw [show (100:ℝ) = ((100:ℤ):ℝ) from by norm_num, roundR_intCast]

theorem default_true_eq :
    get_default_frequencies true =
      get_default_frequencies false ++
        ((List.range 15).map fun (i : ℕ) =>
          roundR ((100:ℝ) * ((1000:ℝ) / 100) ^ (((i + 1 : ℕ) : ℝ) / ((15 : ℕ) : ℝ)))) := by
  simp only [get_default_frequencies, Bool.false_eq_true, if_false, if_true]
  rw [List.length_map, asme_len, show (100 - 76 : ℕ) = 24 from rfl, asmeR_last]
  rw [ext_eq (34:ℝ) 100 24]
  have hlast :
      ((get_asme_frequencies.map fun q => ((q : ℚ) : ℝ)) ++
        ((List.range 24).map fun (i : ℕ) =>
          roundR ((34:ℝ) * ((100:ℝ) / 34) ^
            (((i + 1 : ℕ) : ℝ) / ((24 : ℕ) : ℝ))))).getLastD 0 = 100 := by
    rw [List.getLastD_eq_getLast?, List.getLast?_append_of_ne_nil _ (by simp)]
    rw [range_map_getLast _ 24 23 rfl]
    rw [show ((23 + 1 : ℕ) : ℝ) = ((24 : ℕ) : ℝ) from by norm_num]
    rw [geom_last_val 34 100 24 (by norm_num) (by norm_num)]
    rw [show (100:ℝ) = ((100:ℤ):ℝ) from by norm_num, roundR_intCast]
    norm_num
  rw [hlast, ext_eq (100:ℝ) 1000 15]

theorem default_true_len : (get_default_frequencies true).length = 115 := by
  rw [default_true_eq, List.length_append, default_false_len,
    List.length_map, List.length_range]

theorem default_true_last :
    (get_default_frequencies true).getLast? = some 1000 := by
  rw [default_true_eq, List.getLast?_append_of_ne_nil _ (by simp)]
  rw [range_map_getLast _ 15 14 rfl]
  rw [show ((14 + 1 : ℕ) : ℝ) = ((15 : ℕ) : ℝ) from by norm_num]
  rw [geom_last_val 100 1000 15 (by norm_num) (by norm_num)]
  rw [show (1000:ℝ) = ((1000:ℤ):ℝ) from by norm_num, roundR_intCast]

theorem ext_chain (a b : ℝ) (n : ℕ) (hn : n ≠ 0) (ha : 0 < a)
    (key : ((a + 1) / a) ^ n < b / a) :
    List.Chain' (· < ·)
      ((List.range n).map fun (i : ℕ) =>
        roundR (a * (b / a) ^ (((i + 1 : ℕ) : ℝ) / ((n : ℕ) : ℝ)))) :=
  range_map_chain _ _ n fun i _ => by
    unfold roundR
    rw [Int.cast_lt]
    apply round_lt_round_of_gap
    have hgap := geom_gap a b n hn ha key (i + 1)
    have hcast : (((i + 1 : ℕ) : ℝ) + 1) = ((i + 1 + 1 : ℕ) : ℝ) := by
      push_cast; ring
    rwa [hcast] at hgap

/-- The first rounded extension point strictly exceeds the integer start
value `a`. -/
theorem lt_ext_head (a b : ℝ) (n : ℕ) (hn : n ≠ 0) (ha : 0 < a)
    (key : ((a + 1) / a) ^ n < b / a) (m : ℤ) (hm : ((m : ℤ) : ℝ) = a) :
    a < roundR (a * (b / a) ^ (((0 + 1 : ℕ) : ℝ) / ((n : ℕ) : ℝ))) := by
  have hgap := geom_gap a b n hn ha key 0
  have h0 : a * (b / a) ^ (((0 : ℕ) : ℝ) / ((n : ℕ) : ℝ)) = a := by
    norm_num
  have hcast : (((0 : ℕ) : ℝ) + 1) = ((0 + 1 : ℕ) : ℝ) := by norm_num
  rw [h0, hcast] at hgap
  have hr : round a = m := by rw [← hm, round_intCast]
  have hlt : round a <
      round (a * (b / a) ^ (((0 + 1 : ℕ) : ℝ) / ((n : ℕ) : ℝ))) :=
    round_lt_round_of_gap _ _ hgap
  unfold roundR
  calc a = ((m : ℤ) : ℝ) := hm.symm
    _ = ((round a : ℤ) : ℝ) := by rw [hr]
    _ < _ := by exact_mod_cast hlt

theorem default_false_chain :
    List.Chain' (· < ·) (get_default_frequencies false) := by
  rw [default_false_eq]
  refine List.chain'_append.mpr ⟨?_, ?_, ?_⟩
  · rw [List.chain'_map]
    exact List.Chain'.imp (fun a b h => Rat.cast_lt.mpr h) asme_chain_head.1
  · exact ext_chain 34 100 24 (by norm_num) (by norm_num) (by norm_num)
  · intro x hx y hy
    rw [List.getLast?_map, asme_last, Option.map_some'] at hx
    rw [range_map_head _ 24 (by norm_num)] at hy
    rw [Option.mem_def, Option.some.injEq] at hx hy
    rw [← hx, ← hy]
    rw [show (((34:ℚ)) : ℝ) = 34 from by norm_num]
    exact lt_ext_head 34 100 24 (by norm_num) (by norm_num) (by norm_num)
      34 (by norm_num)

theorem default_true_chain :
    List.Chain' (· < ·) (get_default_frequencies true) := by
  rw [default_true_eq]
  refine List.chain'_append.mpr ⟨default_false_chain, ?_, ?_⟩
  · exact ext_chain 100 1000 15 (by norm_num) (by norm_num) (by norm_num)
  · intro x hx y hy
    rw [default_false_last, Option.mem_def, Option.some.injEq] at hx
    rw [range_map_head _ 15 (by norm_num), Option.mem_def,
      Option.some.injEq] at hy
    rw [← hx, ← hy]
    exact lt_ext_head 100 1000 15 (by norm_num) (by norm_num) (by norm_num)
      100 (by norm_num)

/-! ### Claim theorems about the frequency grids -/

/-- Claim C1: the frequency grid satisfies the literal ASME contract:
`get_asme_frequencies` starts at 0.1 Hz, ends at 34 Hz and has at least 73
points; `get_default_frequencies false` has exactly 100 points and ends at
100 Hz; `get_default_frequencies true` has at least 112 points and ends at
1000 Hz.  (Exact-arithmetic model; in the binary64 model the ASME grid has
77 rather than 76 points, `asme_fp_len`, and every stated bound holds there
as well since the 100-point total counts `100 - len` extension points.) -/
theorem C1_frequency_grid_contract :
    get_asme_frequencies.head? = some (1/10) ∧
    get_asme_frequencies.getLast? = some 34 ∧
    73 ≤ get_asme_frequencies.length ∧
    (get_default_frequencies false).length = 100 ∧
    (get_default_frequencies false).getLast? = some 100 ∧
    112 ≤ (get_default_frequencies true).length ∧
    (get_default_frequencies true).getLast? = some 1000 :=
  ⟨asme_head, asme_last, by rw [asme_len]; norm_num, default_false_len,
    default_false_last, by rw [default_true_len]; norm_num,
    default_true_last⟩

/-- Claim C9, amended: in exact real arithmetic the sequence returned by
`get_default_frequencies` is strictly ascending for each flag — in
particular the integer-rounded geometric extensions introduce no duplicate
or out-of-order points — but in IEEE binary64 arithmetic (the arithmetic
numpy performs) `np.arange(3, 3.6, 0.15)` emits the double 3.6 as its
fifth point, because `3 + 4*0.15` rounds to exactly the double nearest
3.6; the ASME prefix of the returned grid therefore contains that value
twice, and the sequence is not strictly ascending. -/
theorem C9_grid_strictly_ascending :
    (∀ hf : Bool, List.Chain' (· < ·) (get_default_frequencies hf)) ∧
    get_asme_frequencies_fp.get? 33 = get_asme_frequencies_fp.get? 34 ∧
    get_asme_frequencies_fp.get? 33 = some (fl (18/5)) :=
  ⟨fun hf => by
    cases hf with
    | false => exact default_false_chain
    | true => exact default_true_chain,
   by rw [asme_fp_33, asme_fp_34], asme_fp_33⟩

/-- Claim C9, counterexample: under IEEE binary64 arithmetic the ASME
grid — the prefix that `get_default_frequencies` returns unchanged before
appending the geometric extension — has 77 points whose entries 33 and 34
both equal the double nearest 3.6 (the exact rational
8106479329266893/2^51), so the returned sequence is not strictly
ascending for either flag. -/
theorem C9_fp_duplicate_counterexample :
    get_asme_frequencies_fp.get? 33 =
      some (8106479329266893 / 2251799813685248) ∧
    get_asme_frequencies_fp.get? 34 =
      some (8106479329266893 / 2251799813685248) ∧
    fl (18/5) = 8106479329266893 / 2251799813685248 ∧
    ¬ List.Chain' (· < ·) get_asme_frequencies_fp :=
  ⟨by rw [asme_fp_33, fl_lit_3p6], by rw [asme_fp_34, fl_lit_3p6],
    fl_lit_3p6, asme_fp_not_strictly_ascending⟩

/-! ### Claim theorems about the response-spectrum engine -/

/-- The engine body never handles a solver failure: a call to
`response_spectrum` is the selected solver's outcome, with the grid and
the timing print attached on success and the error unchanged on
failure. -/
theorem response_spectrum_as_map (acc time : List ℝ) (zeta : ℝ)
    (hf : Bool) (m : String) :
    response_spectrum acc time zeta hf m =
      (apply_rs_method (rs_method_lookup m) acc time
          (get_default_frequencies hf) zeta).map
        (fun r => ((r.1, get_default_frequencies hf),
          [RSEffect.print])) := by
  have hx : ∀ x : Except PyError (List ℝ × List ℝ),
      (x >>= fun res =>
        pure ((res.1, get_default_frequencies hf), [RSEffect.print])) =
      x.map (fun r => ((r.1, get_default_frequencies hf),
        [RSEffect.print])) := by
    intro x
    cases x <;> rfl
  exact hx (apply_rs_method (rs_method_lookup m) acc time
    (get_default_frequencies hf) zeta)

/-- The frequency-domain solver returns normally whenever `time` has at
least two entries and `acc` is nonempty, whatever `zeta` is. -/
theorem fft_rs_isOk (acc time frqs : List ℝ) (zeta : ℝ)
    (h2 : 2 ≤ time.length) (ha : acc ≠ []) :
    (_fft_rs acc time frqs zeta).isOk = true := by
  obtain ⟨a, l, rfl⟩ : ∃ a l, acc = a :: l := by
    cases acc with
    | nil => exact absurd rfl ha
    | cons a l => exact ⟨a, l, rfl⟩
  unfold _fft_rs _fft_rs_dt
  rw [if_neg (by omega), if_neg (by simp)]
  rfl

/-- The step solver fails with the complex-matrix `TypeError` whenever
`time` is long enough to get past `dt = time[1] - time[0]`, the
frequency list is nonempty (so the loop body runs) and
`1 - zeta² < 0`. -/
theorem step_rs_typeError (acc time frqs : List ℝ) (zeta : ℝ)
    (h2 : 2 ≤ time.length) (hfr : frqs ≠ []) (hz : 1 - zeta ^ 2 < 0) :
    _step_rs acc time frqs zeta = .error .typeError := by
  unfold _step_rs _step_rs_dt
  rw [if_neg (by omega), if_pos ⟨by simpa using hfr, hz⟩]

/-- Each default grid is nonempty (it has 100 or 115 points). -/
theorem default_frequencies_ne_nil (hf : Bool) :
    get_default_frequencies hf ≠ [] := by
  intro h
  cases hf
  · have hl := default_false_len
    rw [h] at hl
    simp at hl
  · have hl := default_true_len
    rw [h] at hl
    simp at hl

/-- With the step method selected, a damping ratio with `1 - zeta² < 0`
makes the whole call fail with the propagated `TypeError`. -/
theorem response_shake_typeError (acc time : List ℝ) (zeta : ℝ)
    (hf : Bool) (h2 : 2 ≤ time.length) (hz : 1 - zeta ^ 2 < 0) :
    response_spectrum acc time zeta hf "shake" = .error .typeError := by
  rw [response_spectrum_as_map]
  have hs : rs_method_lookup "shake" = RSMethod.shake := rfl
  rw [hs]
  have hstep : apply_rs_method RSMethod.shake acc time
      (get_default_frequencies hf) zeta = .error .typeError :=
    step_rs_typeError acc time (get_default_frequencies hf) zeta h2
      (default_frequencies_ne_nil hf) hz
  rw [hstep]
  rfl

/-- With the default method selected, a call on a time sequence of at
least two points and a nonempty record returns normally, whatever
`zeta` is. -/
theorem response_fft_isOk (acc time : List ℝ) (zeta : ℝ) (hf : Bool)
    (h2 : 2 ≤ time.length) (ha : acc ≠ []) :
    (response_spectrum acc time zeta hf "fft").isOk = true := by
  rw [response_spectrum_as_map]
  have hs : rs_method_lookup "fft" = RSMethod.fft := rfl
  have happ : apply_rs_method RSMethod.fft = _fft_rs := rfl
  rw [hs, happ]
  have h := fft_rs_isOk acc time (get_default_frequencies hf) zeta h2 ha
  cases hc : _fft_rs acc time (get_default_frequencies hf) zeta with
  | error e =>
      rw [hc] at h
      simp [Except.isOk, Except.toBool] at h
  | ok r => rfl

/-- Claim C2, counterexample: `zeta = 2` lies outside `(0,1)`, yet no
InvalidParameter rejection happens.  With the default method the call is
not rejected at all — it returns a spectrum computed with `zeta = 2`;
with the step method it does fail, but with an uncontrolled `TypeError`
propagated from the complex-valued step matrix (spectrum.py line 129),
not with a validation failure. -/
theorem C2_counterexample :
    (response_spectrum [0, 1] [0, 1] 2 false "fft").isOk = true ∧
      response_spectrum [0, 1] [0, 1] 2 false "shake" =
        .error .typeError :=
  ⟨rfl, response_shake_typeError [0, 1] [0, 1] 2 false (by norm_num)
    (by norm_num)⟩

/-- Claim C2, amended: the engine performs no validation of the damping
ratio and never produces an InvalidParameter failure.  (1) Every call is
exactly the selected solver's outcome with `zeta` passed through
unchanged (not clamped), solver failures propagating as-is.  (2) Under
the default frequency-domain method, a call with a `zeta` outside
`(0,1)` returns a spectrum normally.  (3) Under the step method, a
`zeta` with `1 - zeta² < 0` crashes the call with the `TypeError`
propagated from the complex-valued step matrix — an uncontrolled
failure, not a rejection. -/
theorem C2_no_zeta_validation :
    (∀ (acc time : List ℝ) (zeta : ℝ) (hf : Bool) (m : String),
      response_spectrum acc time zeta hf m =
        (apply_rs_method (rs_method_lookup m) acc time
            (get_default_frequencies hf) zeta).map
          (fun r => ((r.1, get_default_frequencies hf),
            [RSEffect.print]))) ∧
    (∀ (acc time : List ℝ) (zeta : ℝ) (hf : Bool),
      2 ≤ time.length → acc ≠ [] → ¬ (0 < zeta ∧ zeta < 1) →
      (response_spectrum acc time zeta hf "fft").isOk = true) ∧
    (∀ (acc time : List ℝ) (zeta : ℝ) (hf : Bool),
      2 ≤ time.length → 1 - zeta ^ 2 < 0 →
      response_spectrum acc time zeta hf "shake" =
        .error .typeError) :=
  ⟨response_spectrum_as_map,
   fun acc time zeta hf h2 ha _ =>
     response_fft_isOk acc time zeta hf h2 ha,
   fun acc time zeta hf h2 hz =>
     response_shake_typeError acc time zeta hf h2 hz⟩

/-- Witness for C2 at `zeta = 3` with a three-point time sequence. -/
theorem C2_witness :
    (response_spectrum [2, 1] [0, 1, 5] 3 true "fft").isOk = true ∧
      response_spectrum [2, 1] [0, 1, 5] 3 true "shake" =
        .error .typeError :=
  ⟨C2_no_zeta_validation.2.1 [2, 1] [0, 1, 5] 3 true (by norm_num)
      (by simp) (fun hc => absurd hc.2 (by norm_num)),
   C2_no_zeta_validation.2.2 [2, 1] [0, 1, 5] 3 true (by norm_num)
      (by norm_num)⟩

/-- Claim C3, counterexample: `"step"` is not a key of
`RS_METHODS_DICT` (the keys are `"fft"` and `"shake"`), so
`method = "step"` selects the default frequency-domain solver, not the
recursive step solver. -/
theorem C3_counterexample :
    rs_method_lookup "step" = RSMethod.fft ∧
      RSMethod.fft ≠ RSMethod.shake := ⟨rfl, by decide⟩

/-- Claim C3, amended: the set of recognized method names is exactly
`{"fft", "shake"}`: `"fft"` selects the frequency-domain solver,
`"shake"` selects the recursive step solver, and every other value
(including `"step"`) falls back to the default `"fft"` rather than
failing. -/
theorem C3_method_dispatch :
    rs_method_lookup "fft" = RSMethod.fft ∧
    rs_method_lookup "shake" = RSMethod.shake ∧
    apply_rs_method RSMethod.fft = _fft_rs ∧
    apply_rs_method RSMethod.shake = _step_rs ∧
    ∀ m : String, m ≠ "fft" → m ≠ "shake" →
      rs_method_lookup m = RSMethod.fft := by
  refine ⟨rfl, rfl, rfl, rfl, ?_⟩
  intro m h1 h2
  have hb1 : (m == "fft") = false := beq_eq_false_iff_ne.mpr h1
  have hb2 : (m == "shake") = false := beq_eq_false_iff_ne.mpr h2
  simp [rs_method_lookup, RS_METHODS_DICT, DEFAULT_METHOD, List.lookup,
    hb1, hb2]

/-- Witness for C3 at the claim's own name `"step"`. -/
theorem C3_witness : rs_method_lookup "step" = RSMethod.fft :=
  C3_method_dispatch.2.2.2.2 "step" (by decide) (by decide)

/-- Claim C8, counterexample: the engine is not free of I/O — the effect
trace of a successful call is the (nonempty) singleton print of the
timing summary. -/
theorem C8_counterexample :
    (response_spectrum [0, 1] [0, 1] (1/20) false "fft").map
        (fun r => r.2) = .ok [RSEffect.print] ∧
      ([RSEffect.print] : List RSEffect) ≠ [] := ⟨rfl, by decide⟩

/-- Claim C8, amended: the engine mutates none of its inputs (it is a
pure function of its argument values in this model) and produces its
result fresh, but it does perform I/O, and it can fail: (1) every call
that returns normally has printed the timing summary exactly once;
(2) when the selected solver raises, the exception propagates out of
`response_spectrum` unchanged — it escapes before the print runs, so a
failing call carries no effect trace at all. -/
theorem C8_effect_trace :
    (∀ (acc time : List ℝ) (zeta : ℝ) (hf : Bool) (m : String),
      (response_spectrum acc time zeta hf m).isOk = true →
      (response_spectrum acc time zeta hf m).map (fun r => r.2) =
        .ok [RSEffect.print]) ∧
    (∀ (acc time : List ℝ) (zeta : ℝ) (hf : Bool) (m : String)
      (e : PyError),
      response_spectrum acc time zeta hf m = .error e →
      apply_rs_method (rs_method_lookup m) acc time
        (get_default_frequencies hf) zeta = .error e) := by
  constructor
  · intro acc time zeta hf m hok
    rw [response_spectrum_as_map] at hok ⊢
    cases hc : apply_rs_method (rs_method_lookup m) acc time
        (get_default_frequencies hf) zeta with
    | error e =>
        rw [hc] at hok
        simp [Except.isOk, Except.toBool, Except.map] at hok
    | ok r => rfl
  · intro acc time zeta hf m e herr
    rw [response_spectrum_as_map] at herr
    cases hc : apply_rs_method (rs_method_lookup m) acc time
        (get_default_frequencies hf) zeta with
    | error e2 =>
        rw [hc] at herr
        simp only [Except.map] at herr
        injection herr with hee
        rw [hee]
    | ok r =>
        rw [hc] at herr
        simp [Except.map] at herr

/-- Witness for C8: a normal call's trace is the single print, and the
step method's `TypeError` at `zeta = 5` propagates out unchanged. -/
theorem C8_witness :
    (response_spectrum [5, 6] [0, 1] (1/10) true "fft").map
        (fun r => r.2) = .ok [RSEffect.print] ∧
      apply_rs_method (rs_method_lookup "shake") [3, 4] [0, 2]
          (get_default_frequencies true) 5 = .error .typeError :=
  ⟨C8_effect_trace.1 [5, 6] [0, 1] (1/10) true "fft" rfl,
   C8_effect_trace.2 [3, 4] [0, 2] 5 true "shake" .typeError
     (response_shake_typeError [3, 4] [0, 2] 5 true (by norm_num)
       (by norm_num))⟩

/-- Claim C10: both solvers depend on the time sequence only through its
first interval: if `time[1] - time[0]` agree, `_step_rs` and `_fft_rs`
return identical results for the two time sequences, all other time
values being ignored. -/
theorem C10_solvers_use_only_dt (acc frqs : List ℝ) (zeta : ℝ)
    (time time' : List ℝ) (h2 : 2 ≤ time.length) (h2' : 2 ≤ time'.length)
    (h : time.getD 1 0 - time.getD 0 0 =
      time'.getD 1 0 - time'.getD 0 0) :
    _step_rs acc time frqs zeta = _step_rs acc time' frqs zeta ∧
      _fft_rs acc time frqs zeta = _fft_rs acc time' frqs zeta := by
  have hn : ¬ time.length < 2 := by omega
  have hn' : ¬ time'.length < 2 := by omega
  unfold _step_rs _fft_rs
  simp only [if_neg hn, if_neg hn', h]
  refine ⟨?_, ?_⟩ <;> trivial

/-- Witness for C10: `[0, 1, 2]` and `[5, 6, 100]` share the first
interval `1` and give identical solver outputs. -/
theorem C10_witness :
    _step_rs [1, 0, 2] [0, 1, 2] [1] (1/20) =
        _step_rs [1, 0, 2] [5, 6, 100] [1] (1/20) ∧
      _fft_rs [1, 0, 2] [0, 1, 2] [1] (1/20) =
        _fft_rs [1, 0, 2] [5, 6, 100] [1] (1/20) :=
  C10_solvers_use_only_dt [1, 0, 2] [1] (1/20) [0, 1, 2] [5, 6, 100]
    (by norm_num) (by norm_num) (by norm_num [List.getD])
